import Mathlib

/-
Verification of the FinancialRisk DataFactory pipeline (Scripts/DataFactory):
a shallow embedding in Lean 4 of the pipeline executor, cache manager,
validation pipeline and fixer strategies, translated from the Python source
(engine.py, validators.py, fixers.py), together with theorems settling the
frozen claims about them.

Modelling conventions:
- a pandas DataFrame column is a List of rationals (no NaN entries are
  modelled; every claim below concerns non-null values, and pandas masks of
  the form df[col] < c are false on NaN, so null rows are simply untouched);
- a DataFrame for the generic pipeline machinery is a list of rows;
- mutation of a column by masked assignment is modelled as List.map of the
  per-element conditional that the mask and assignment compute;
- exceptions of user code are modelled with Except; the strategies embedded
  here are total, and branches of the source that only log are noted in
  comments and have no effect on the data.
-/

/-- Generic table: a list of rows, each row a list of rational cells.
Used by the pipeline executor, cache and validation machinery, where the
contents of rows are never inspected beyond emptiness of the table. -/
abbrev Table := List (List ℚ)

/-! Insertion sort on a boolean comparison, used to model Python sorted()
and pandas quantile/median computations. -/

def insertLe {α : Type} (le : α → α → Bool) (x : α) : List α → List α
  | [] => [x]
  | y :: ys => if le x y then x :: y :: ys else y :: insertLe le x ys

def sortLe {α : Type} (le : α → α → Bool) : List α → List α
  | [] => []
  | x :: xs => insertLe le x (sortLe le xs)

def sortQ (xs : List ℚ) : List ℚ := sortLe (fun a b => decide (a ≤ b)) xs

/-- pandas Series.quantile with the default linear interpolation:
position p * (n - 1) in the sorted data, linearly interpolated between the
two neighbouring order statistics.  Junk value 0 on an empty list. -/
def quantile (xs : List ℚ) (p : ℚ) : ℚ :=
  let s := sortQ xs
  let n := s.length
  if n = 0 then 0
  else
    let pos : ℚ := p * ((n : ℚ) - 1)
    let i : ℕ := pos.num.toNat / pos.den
    let frac : ℚ := pos - (i : ℚ)
    let a := s.getD i 0
    if i + 1 < n then a + frac * (s.getD (i + 1) 0 - a) else a

/-- pandas Series.median: middle order statistic, or the mean of the two
middle ones for even length.  Junk value 0 on an empty list. -/
def median (xs : List ℚ) : ℚ :=
  let s := sortQ xs
  let n := s.length
  if n = 0 then 0
  else if n % 2 = 1 then s.getD (n / 2) 0
  else (s.getD (n / 2 - 1) 0 + s.getD (n / 2) 0) / 2

/-! Validation pipeline (validators.py).
An issue is a severity-tagged record; a strategy's validate returns a status
and a list of issues (quality metrics are not needed by any claim and are
omitted); a raising strategy is an Except.error. -/

structure Issue where
  itype : String
  message : String
  severity : String
deriving DecidableEq

structure StepResult where
  status : String
  issues : List Issue
deriving DecidableEq

/-- Number of issues in a list carrying a given severity tag. -/
def countSeverity (issues : List Issue) (sev : String) : ℕ :=
  (issues.filter (fun i => decide (i.severity = sev))).length

/-- ValidationPipeline.process results (validators.py lines 1115-1124):
the fields of the results dict that the claims mention. -/
structure VResults where
  status : String
  issues : List Issue
  validationPass : ℕ
  score : ℤ
deriving DecidableEq

/-- Status update of ValidationPipeline.process (validators.py 1174-1177):
a failed step forces failed; a warning step upgrades to warning unless
already failed. -/
def updateStatus (cur stepStatus : String) : String :=
  if stepStatus = "failed" then "failed"
  else if stepStatus = "warning" ∧ cur ≠ "failed" then "warning"
  else cur

/-- Accumulator of the step loop of ValidationPipeline.process:
status, all_issues, critical_count, warning_count. -/
structure VAcc where
  status : String
  issues : List Issue
  crit : ℕ
  warn : ℕ

/-- One iteration of the loop of ValidationPipeline.process
(validators.py 1143-1182): a raising step only sets status to error;
otherwise issues are appended and counted by severity and the combined
status is updated. -/
def vStepFold (df : Table) (acc : VAcc) (step : Table → Except String StepResult) : VAcc :=
  match step df with
  | .error _ => { acc with status := "error" }
  | .ok r =>
      { status := updateStatus acc.status r.status
        issues := acc.issues ++ r.issues
        crit := acc.crit + countSeverity r.issues "critical"
        warn := acc.warn + countSeverity r.issues "warning" }

/-- The issue appended by ValidationPipeline.process on an empty input. -/
def emptyDfIssue : Issue :=
  { itype := "empty_dataframe"
    message := "Empty dataframe provided for validation"
    severity := "critical" }

/-- ValidationPipeline.process (validators.py 1106-1195).  The validation
counter is incremented first; an empty dataframe short-circuits to a failed
result (note: with the initial score 100 untouched); otherwise every step
strategy is run, issues are accumulated, and the score is
max(0, 100 - 10*critical - 2*warning) whenever any issue accumulated. -/
def ValidationPipeline.process (count : ℕ) (steps : List (Table → Except String StepResult))
    (df : Table) : VResults :=
  let pass := count + 1
  if df = [] then
    { status := "failed", issues := [emptyDfIssue], validationPass := pass, score := 100 }
  else
    let acc := steps.foldl (vStepFold df) ⟨"passed", [], 0, 0⟩
    let score : ℤ :=
      if acc.issues = [] then 100
      else max 0 (100 - ((acc.crit : ℤ) * 10 + (acc.warn : ℤ) * 2))
    { status := acc.status, issues := acc.issues, validationPass := pass, score := score }

/-- ValidationPipelineStep.execute (validators.py 1083-1088): runs the
strategy and returns the input dataframe. -/
def ValidationPipelineStep.execute (validate : Table → StepResult) (df : Table) : Table :=
  let _ := validate df
  df

/-- DataValidationStep.execute (engine.py 337-349): empty input is returned
without validating; otherwise the validation pipeline runs, its results are
stored on the step, and the input dataframe is returned. -/
def DataValidationStep.execute (validator : Table → VResults) (stored : Option VResults)
    (df : Table) : Option VResults × Table :=
  if df = [] then (stored, df)
  else (some (validator df), df)

/-! Cache manager (engine.py 157-241).  Two tiers, an in-process memory map
and an on-disk store of pickled tables; both are modelled as association
lists from the cache key (a string dataset_step) to a table, most recent
entry first, which matches Python dict/file overwriting on lookup.
Reading or writing a pickle returns an equal table, and Series.copy is
value-identical, so copies are modelled as the value itself. -/

structure CacheState where
  enabled : Bool
  mem : List (String × Table)
  disk : List (String × Table)

/-- The cache key of engine.py lines 178 and 204. -/
def cacheKey (datasetName stepName : String) : String :=
  datasetName ++ "_" ++ stepName

/-- Lookup in one cache tier (first, i.e. most recent, binding wins). -/
def tierLookup (tier : List (String × Table)) (k : String) : Option Table :=
  (tier.find? (fun e => decide (e.1 = k))).map (·.2)

/-- CacheManager.get_from_cache (engine.py 172-197): disabled caching yields
nothing; the memory tier takes precedence; a disk hit is promoted into the
memory tier. -/
def CacheManager.getFromCache (s : CacheState) (datasetName stepName : String) :
    Option Table × CacheState :=
  if s.enabled = false then (none, s)
  else
    let k := cacheKey datasetName stepName
    match tierLookup s.mem k with
    | some df => (some df, s)
    | none =>
      match tierLookup s.disk k with
      | some df => (some df, { s with mem := (k, df) :: s.mem })
      | none => (none, s)

/-- CacheManager.save_to_cache (engine.py 199-215): a no-op when caching is
disabled or the table is empty, else writes both tiers. -/
def CacheManager.saveToCache (s : CacheState) (df : Table) (datasetName stepName : String) :
    CacheState :=
  if s.enabled = false ∨ df = [] then s
  else
    let k := cacheKey datasetName stepName
    { s with mem := (k, df) :: s.mem, disk := (k, df) :: s.disk }

/-- CacheManager.clear_cache with a dataset name (engine.py 217-232):
removes the memory entries whose key starts with datasetName_ and the disk
files matching the glob datasetName_*.pkl (i.e. the same key prefix). -/
def CacheManager.clearCache (s : CacheState) (datasetName : String) : CacheState :=
  if s.enabled = false then s
  else
    { s with
      mem := s.mem.filter (fun e => ! e.1.startsWith (datasetName ++ "_"))
      disk := s.disk.filter (fun e => ! e.1.startsWith (datasetName ++ "_")) }

/-! Pipeline executor (engine.py 576-649). -/

/-- A pipeline step as the executor sees it: its cache name, its execute
function, and, for validation steps, the validation pipeline together with
the stored last_validation_results that the executor reads back (engine.py
624-625), which is read even on a cache hit when execute did not run. -/
structure PStep where
  name : String
  run : Table → Table
  validate : Option (Table → VResults)
  stored : Option VResults

/-- Execution of one step: a validation step validates a nonempty input,
stores the result and passes the table through (engine.py 337-349); any
other step applies its pipeline to the table. -/
def PStep.exec (s : PStep) (df : Table) : Table × PStep :=
  match s.validate with
  | some v => if df = [] then (df, s) else (df, { s with stored := some (v df) })
  | none => (s.run df, s)

/-- Return value of PipelineExecutor.execute.  The declared contract is the
triple (success, final dataframe, validation results); the constructor
single models the bare boolean that line 632 of engine.py actually returns
when a step yields an empty dataframe. -/
inductive ExecReturn where
  | triple (success : Bool) (finalDf : Option Table) (vres : Option VResults)
  | single (success : Bool)
deriving DecidableEq

/-- The step loop of PipelineExecutor.execute (engine.py 607-644): per step,
a cache probe, execution and cache write on a miss, capture of the stored
validation results when the step is a validation step, and the empty-table
abort; after the loop the final table is saved and the triple returned.
Checkpoint saving (line 635-637) only writes files and is omitted. -/
def execLoop (datasetName : String) (save : Table → Bool) :
    List PStep → CacheState → Table → Option VResults → ExecReturn
  | [], _, df, lastV => .triple (save df) (some df) lastV
  | step :: rest, cache, df, lastV =>
    let probe := CacheManager.getFromCache cache datasetName step.name
    match probe.1 with
    | some cdf =>
      let lastV' := if step.validate.isSome then step.stored else lastV
      if cdf = [] then .single false
      else execLoop datasetName save rest probe.2 cdf lastV'
    | none =>
      let r := step.exec df
      let cache' := CacheManager.saveToCache probe.2 r.1 datasetName step.name
      let lastV' := if r.2.validate.isSome then r.2.stored else lastV
      if r.1 = [] then .single false
      else execLoop datasetName save rest cache' r.1 lastV'

/-- PipelineExecutor.execute (engine.py 593-649) with the loaded table as
input (the external loader is out of scope): an empty load returns the
failure triple (False, None, None); otherwise the step loop runs.  The
enclosing exception handler (lines 646-649) is unreachable in this model
because every embedded step is total. -/
def PipelineExecutor.execute (datasetName : String) (steps : List PStep)
    (cache : CacheState) (loaded : Table) (save : Table → Bool) : ExecReturn :=
  if loaded = [] then .triple false none none
  else execLoop datasetName save steps cache loaded none

/-! Fixer strategies (fixers.py). -/

/-- FixerStrategy.fix (fixers.py 84-102), the wrapper shared by every fixer
strategy.  The implementation-specific _fix is a parameter taking the
current fix counter (it only ever adds to it through _log_fixes) and the
copied dataframe, and may raise (Except.error).  fix resets the counter to
zero, returns an empty input unchanged, and returns the original input
whenever _fix raises.  The pair returned is (final fix counter, table). -/
def FixerStrategy.fix (inner : ℕ → Table → Except String (ℕ × Table))
    (_fixCount : ℕ) (df : Table) : ℕ × Table :=
  let c : ℕ := 0
  if df = [] then (c, df)
  else
    match inner c df with
    | .ok r => r
    | .error _ => (c, df)

/-! OutlierFixerStrategy (fixers.py 215-397).  The fix of one numeric
column: the column is modelled together with the values of the group-by key
column as a list of (key value, column value) pairs. -/

/-- Count of occurrences of a value in a list of rationals. -/
def cnt (l : List ℚ) (x : ℚ) : ℕ :=
  (l.filter (fun y => decide (y = x))).length

/-- The top entry of pandas value_counts: a value of maximal count.  pandas
leaves the order of equally-frequent values unspecified; this embedding
takes the first-occurring one, and the development relies on the choice
only where the maximum is strict. -/
def firstMode (l : List ℚ) : ℚ :=
  l.foldl (fun best x => if cnt l best < cnt l x then x else best) (l.headD 0)

/-- The column values of the group of a given key value. -/
def groupValues (rows : List (ℚ × ℚ)) (g : ℚ) : List ℚ :=
  (rows.filter (fun s => decide (s.1 = g))).map (·.2)

/-- OutlierFixerStrategy._fix_group_outliers (fixers.py 343-380): within
each group of the group-by key of size at least 3 whose most frequent value
occurs in at least size - 2 rows, every row of the group is overwritten
with that consensus value (rows already equal to it are left in place,
which yields the same value).  Groups are disjoint and each group only
rewrites its own rows from its own pre-rewrite counts, so the loop over
groups is equivalent to this per-row map over the original rows. -/
def fixGroupOutliers (rows : List (ℚ × ℚ)) : List (ℚ × ℚ) :=
  rows.map (fun r =>
    if 3 ≤ (groupValues rows r.1).length ∧
        (groupValues rows r.1).length - 2 ≤
          cnt (groupValues rows r.1) (firstMode (groupValues rows r.1)) then
      (r.1, if r.2 = firstMode (groupValues rows r.1) then r.2
            else firstMode (groupValues rows r.1))
    else r)

/-- OutlierFixerStrategy._calculate_bounds together with
_calculate_bounds_cached (fixers.py 295-315): None when the IQR is zero,
else the pair (q1 - threshold*iqr, q3 + threshold*iqr). -/
def calculateBounds (q1 q3 threshold : ℚ) : Option (ℚ × ℚ) :=
  if q3 - q1 = 0 then none
  else some (q1 - threshold * (q3 - q1), q3 + threshold * (q3 - q1))

/-- The per-value effect of OutlierFixerStrategy._fix_outliers_with_bounds
(fixers.py 317-341) without a condition: both masks are computed before the
assignments and the upper assignment runs second, so a value below the
lower bound becomes the lower bound unless it also exceeded the upper
bound. -/
def capToBounds (lowerBound upperBound x : ℚ) : ℚ :=
  if upperBound < x then upperBound
  else if x < lowerBound then lowerBound else x

/-- OutlierFixerStrategy._fix_global_outliers (fixers.py 382-397): bounds
are computed from the column as it stands when the call happens (after any
group fixing); a zero IQR skips the column. -/
def fixGlobalOutliers (xs : List ℚ) (threshold : ℚ) : List ℚ :=
  match calculateBounds (quantile xs (1/4)) (quantile xs (3/4)) threshold with
  | none => xs
  | some b => xs.map (fun x => capToBounds b.1 b.2 x)

/-- The state of a column when the global capping of
OutlierFixerStrategy._fix runs: after group fixing when a group-by key was
found, the original values otherwise. -/
def OutlierFixerStrategy.midColumn (hasGroupKey : Bool) (rows : List (ℚ × ℚ)) : List ℚ :=
  (if hasGroupKey then fixGroupOutliers rows else rows).map (·.2)

/-- The treatment of one non-skipped numeric column inside
OutlierFixerStrategy._fix (fixers.py 234-246): group fixing first when a
group-by key was found, then global IQR capping of the same column. -/
def OutlierFixerStrategy.fixColumn (hasGroupKey : Bool) (rows : List (ℚ × ℚ))
    (threshold : ℚ) : List ℚ :=
  fixGlobalOutliers (OutlierFixerStrategy.midColumn hasGroupKey rows) threshold

/-- Lower-cased code point of a character: Python str.lower on the ASCII
column names that the source compares (codes 65..90 shift by 32). -/
def lowerCode (c : Char) : ℕ :=
  if 65 ≤ c.toNat ∧ c.toNat ≤ 90 then c.toNat + 32 else c.toNat

/-- The lower-cased code points of a string: the value Python's s.lower()
compares by. -/
def ciCodes (s : String) : List ℕ :=
  s.data.map lowerCode

/-- Whether the first list is an initial segment of the second. -/
def startsList : List ℕ → List ℕ → Bool
  | [], _ => true
  | _ :: _, [] => false
  | n :: ns, h :: hs => n == h && startsList ns hs

/-- Whether the needle occurs contiguously inside the haystack. -/
def containsSub : List ℕ → List ℕ → Bool
  | hay, needle =>
    if startsList needle hay then true
    else
      match hay with
      | [] => false
      | _ :: t => containsSub t needle

/-- Python sub in s.lower(): case-insensitive substring test. -/
def strContainsCI (s sub : String) : Bool :=
  containsSub (ciCodes s) (ciCodes sub)

/-- Python string ordering (lexicographic on code points), as used by
sorted() over column names. -/
def charListLe : List Char → List Char → Bool
  | [], _ => true
  | _ :: _, [] => false
  | a :: as, b :: bs =>
    if a.toNat < b.toNat then true
    else if b.toNat < a.toNat then false
    else charListLe as bs

def strLeB (a b : String) : Bool := charListLe a.data b.data

/-- OutlierFixerStrategy._should_skip_column (fixers.py 274-293).  The
missing-ratio test of the source is over null entries, which this model
does not carry, so its contribution is always false here. -/
def shouldSkipColumn (col : String) (values : List ℚ) (datasetName : String) : Bool :=
  if (strContainsCI col "id" ∧ ¬ strContainsCI col "ratio")
      ∨ values.dedup.length ≤ 2 then true
  else
    let domainSpecific : List (String × List String) :=
      [("Loan", ["Age", "AnnualIncome", "CreditScore", "InterestRate", "LoanAmount",
                 "DebtToIncomeRatio"]),
       ("Fraud", ["TransactionAmount", "DistanceFromHome"]),
       ("Market", ["OpenValue", "CloseValue", "HighestValue", "LowestValue", "VIX",
                   "TEDSpread"]),
       ("Macro", ["UnemploymentRate", "GDP", "InflationRate"])]
    match domainSpecific.find? (fun e => decide (e.1 = datasetName)) with
    | some e => decide (col ∈ e.2)
    | none => false

/-- OutlierFixerStrategy._find_groupby_key_cached (fixers.py 253-266) on the
sorted tuple of column names: the first sorted column name whose lowering
appears among the lowerings of the fixed ID-column list. -/
def findGroupbyKey (cols : List String) : Option String :=
  let sortedCols := sortLe strLeB cols
  let defaults := ["Customer_ID", "CustomerID", "ID", "User_ID", "UserID", "UserName"]
  (sortedCols.filter (fun c => decide (ciCodes c ∈ defaults.map ciCodes))).head?

/-! DomainLoanFixerStrategy (fixers.py 400-559).  The table is modelled by
its optionally-present loan columns; the per-column fix helpers operate on
independent columns, so _fix is the simultaneous update of the ones that
are present.  The count-column pass of _fix_count_columns (fixers.py
437-456) only touches columns whose name starts with Num_ or contains
Count or Number; none of the six columns below matches, so it does not act
on this model. -/

structure LoanTable where
  age : Option (List ℚ)
  loanAmount : Option (List ℚ)
  interestRate : Option (List ℚ)
  creditScore : Option (List ℚ)
  annualIncome : Option (List ℚ)
  numLoans : Option (List ℚ)
deriving DecidableEq

/-- Value-wise effect of DomainLoanFixerStrategy._fix_age_values (fixers.py
458-476) with m the median of the column at fix time: a negative age
becomes m, then an age above 100 becomes 100, then an age strictly between
0 and 18 becomes 18 (an age of exactly 0 matches no mask and is left in
place).  The source applies the three masked passes to the whole column in
this order; they act value-wise, so the column fix is the map of their
composition. -/
def fixAgeVal (m a : ℚ) : ℚ :=
  if 0 < (if 100 < (if a < 0 then m else a) then 100 else (if a < 0 then m else a)) ∧
      (if 100 < (if a < 0 then m else a) then 100 else (if a < 0 then m else a)) < 18
  then 18
  else (if 100 < (if a < 0 then m else a) then 100 else (if a < 0 then m else a))

/-- DomainLoanFixerStrategy._fix_age_values on the age column: the median
is the one of the incoming column, which still contains the negatives. -/
def fixAgeValues (xs : List ℚ) : List ℚ := xs.map (fixAgeVal (median xs))

/-- Value-wise effect of DomainLoanFixerStrategy._fix_loan_amount (fixers.py
478-490): negatives to their absolute value, then a cap at 10000000. -/
def fixLoanAmountVal (x : ℚ) : ℚ :=
  if 10000000 < (if x < 0 then abs x else x) then 10000000 else (if x < 0 then abs x else x)

def fixLoanAmount (xs : List ℚ) : List ℚ := xs.map fixLoanAmountVal

/-- Value-wise effect of DomainLoanFixerStrategy._fix_interest_rate
(fixers.py 492-504): a negative rate becomes its absolute value, then a
rate above 100 becomes 100. -/
def fixInterestRateVal (r : ℚ) : ℚ :=
  if 100 < (if r < 0 then abs r else r) then 100 else (if r < 0 then abs r else r)

def fixInterestRate (xs : List ℚ) : List ℚ := xs.map fixInterestRateVal

/-- Value-wise effect of DomainLoanFixerStrategy._fix_credit_score
(fixers.py 506-529): a negative score becomes 300, then a score strictly
between 0 and 300 becomes 300, then a score above 850 becomes 850 (a score
of exactly 0 matches no mask). -/
def fixCreditScoreVal (c : ℚ) : ℚ :=
  if 850 < (if 0 < (if c < 0 then (300 : ℚ) else c) ∧ (if c < 0 then (300 : ℚ) else c) < 300
            then 300 else (if c < 0 then (300 : ℚ) else c))
  then 850
  else (if 0 < (if c < 0 then (300 : ℚ) else c) ∧ (if c < 0 then (300 : ℚ) else c) < 300
        then 300 else (if c < 0 then (300 : ℚ) else c))

def fixCreditScore (xs : List ℚ) : List ℚ := xs.map fixCreditScoreVal

/-- Value-wise effect of DomainLoanFixerStrategy._fix_annual_income
(fixers.py 531-543): negatives to their absolute value, then a cap at
100000000. -/
def fixAnnualIncomeVal (x : ℚ) : ℚ :=
  if 100000000 < (if x < 0 then abs x else x) then 100000000 else (if x < 0 then abs x else x)

def fixAnnualIncome (xs : List ℚ) : List ℚ := xs.map fixAnnualIncomeVal

/-- DomainLoanFixerStrategy._fix_num_loans (fixers.py 545-559): negatives
to 0, then counts above 100 are capped at min(99th percentile, 20), the
percentile taken on the column after the negative fix. -/
def fixNumLoans (xs : List ℚ) : List ℚ :=
  let s1 := xs.map (fun x => if x < 0 then 0 else x)
  let capValue := min (quantile s1 (99/100)) 20
  s1.map (fun x => if 100 < x then capValue else x)

/-- DomainLoanFixerStrategy._fix (fixers.py 403-435): each present column
is fixed by its helper; the helpers read and write disjoint columns, so
the sequential source order is the simultaneous update.  The empty-table
guard and the exception guard of the FixerStrategy.fix wrapper leave the
table unchanged and are modelled separately by FixerStrategy.fix. -/
def DomainLoanFixerStrategy.fix (t : LoanTable) : LoanTable :=
  { age := t.age.map fixAgeValues
    loanAmount := t.loanAmount.map fixLoanAmount
    interestRate := t.interestRate.map fixInterestRate
    creditScore := t.creditScore.map fixCreditScore
    annualIncome := t.annualIncome.map fixAnnualIncome
    numLoans := t.numLoans.map fixNumLoans }

/-! DomainMarketFixerStrategy (fixers.py 660-793).  A market table with all
four OHLC price columns present and complete (no nulls), so that the
valid_mask of the source is true on every row. -/

structure MarketRow where
  openValue : ℚ
  closeValue : ℚ
  highestValue : ℚ
  lowestValue : ℚ
deriving DecidableEq

/-- Row-wise maximum of the four price columns (df[price_cols].max(axis=1)). -/
def rowMax4 (r : MarketRow) : ℚ :=
  max (max r.openValue r.closeValue) (max r.highestValue r.lowestValue)

/-- Row-wise minimum of the four price columns. -/
def rowMin4 (r : MarketRow) : ℚ :=
  min (min r.openValue r.closeValue) (min r.highestValue r.lowestValue)

/-- Step 1 of _fix_price_relationships (fixers.py 702-721): swap
HighestValue and LowestValue on rows where the relationship is inverted. -/
def swapHighLow (rows : List MarketRow) : List MarketRow :=
  rows.map (fun r =>
    if r.highestValue < r.lowestValue then
      { r with highestValue := r.lowestValue, lowestValue := r.highestValue }
    else r)

/-- The force-fix of still-invalid rows after the swap (fixers.py 714-719):
HighestValue becomes the row max and LowestValue the row min of the four
price columns.  After a scalar swap no row can still be inverted, so this
is dead code kept for fidelity. -/
def forceHighLow (rows : List MarketRow) : List MarketRow :=
  rows.map (fun r =>
    if r.highestValue < r.lowestValue then
      { r with highestValue := rowMax4 r, lowestValue := rowMin4 r }
    else r)

/-- The per-column bounds of step 2 of _fix_price_relationships (fixers.py
724-731): lower = max(0, q1 - m*iqr) and upper = q3 + m*iqr with multiplier
m = 1 for HighestValue and 3/2 for the other three columns. -/
def marketColBounds (xs : List ℚ) (m : ℚ) : ℚ × ℚ :=
  let q1 := quantile xs (1/4)
  let q3 := quantile xs (3/4)
  let iqr := q3 - q1
  (max 0 (q1 - m * iqr), q3 + m * iqr)

/-- The sequential masked assignments of step 2 (fixers.py 734-737): the
below-lower mask is applied first and the above-upper mask is recomputed
afterwards. -/
def marketCap (b : ℚ × ℚ) (x : ℚ) : ℚ :=
  let y := if x < b.1 then b.1 else x
  if b.2 < y then b.2 else y

/-- Step 2 of _fix_price_relationships: each of the four price columns is
IQR-capped with its own bounds; the columns are independent, so computing
all four bounds from the incoming table equals the sequential source
loop. -/
def capPriceOutliers (rows : List MarketRow) : List MarketRow :=
  let bO := marketColBounds (rows.map (·.openValue)) (3/2)
  let bC := marketColBounds (rows.map (·.closeValue)) (3/2)
  let bH := marketColBounds (rows.map (·.highestValue)) 1
  let bL := marketColBounds (rows.map (·.lowestValue)) (3/2)
  rows.map (fun r =>
    { openValue := marketCap bO r.openValue
      closeValue := marketCap bC r.closeValue
      highestValue := marketCap bH r.highestValue
      lowestValue := marketCap bL r.lowestValue })

/-- Step 3 of _fix_price_relationships (fixers.py 741-750): OpenValue and
CloseValue are pushed under HighestValue first, then (mask recomputed) up
to LowestValue; both use the current values of the row's High/Low. -/
def clampIntoHighLow (rows : List MarketRow) : List MarketRow :=
  rows.map (fun r =>
    let o := if r.highestValue < r.openValue then r.highestValue else r.openValue
    let o' := if o < r.lowestValue then r.lowestValue else o
    let c := if r.highestValue < r.closeValue then r.highestValue else r.closeValue
    let c' := if c < r.lowestValue then r.lowestValue else c
    { r with openValue := o', closeValue := c' })

/-- DomainMarketFixerStrategy._fix_price_relationships (fixers.py 688-755).
The final check (lines 752-755) only logs remaining High/Low
inconsistencies and changes no data. -/
def fixPriceRelationships (rows : List MarketRow) : List MarketRow :=
  clampIntoHighLow (capPriceOutliers (forceHighLow (swapHighLow rows)))

/-- DomainMarketFixerStrategy._fix_negative_prices (fixers.py 757-762)
applied to each of the four price columns in source order. -/
def fixNegativePrices (rows : List MarketRow) : List MarketRow :=
  rows.map (fun r =>
    { openValue := if r.openValue < (0 : ℚ) then abs r.openValue else r.openValue
      closeValue := if r.closeValue < (0 : ℚ) then abs r.closeValue else r.closeValue
      highestValue := if r.highestValue < (0 : ℚ) then abs r.highestValue else r.highestValue
      lowestValue := if r.lowestValue < (0 : ℚ) then abs r.lowestValue else r.lowestValue })

/-- DomainMarketFixerStrategy._fix (fixers.py 663-686) on a table holding
exactly the four price columns: price relationships then negative-price
fixes (the InterestRate and MarketDate columns are absent from this
model, so their branches do not run). -/
def DomainMarketFixerStrategy.fix (rows : List MarketRow) : List MarketRow :=
  if rows = [] then rows
  else fixNegativePrices (fixPriceRelationships rows)

/-! DataConsistencyFixerStrategy on Fraud data (fixers.py 886-1017). -/

structure FraudRow where
  isFraudulent : ℚ
  isOnlineTransaction : ℚ
  isUsedChip : ℚ
  isUsedPIN : ℚ
deriving DecidableEq

/-- The first masked assignment of
DataConsistencyFixerStrategy._fix_fraud_indicator_consistency (fixers.py
1009-1012): a row with IsOnlineTransaction = 1 and IsUsedChip = 1 gets
IsUsedChip set to 0. -/
def chipFix (r : FraudRow) : FraudRow :=
  if r.isOnlineTransaction = 1 ∧ r.isUsedChip = 1 then { r with isUsedChip := 0 } else r

/-- The second masked assignment (fixers.py 1014-1017), computed on the
already chip-fixed rows: a row with IsOnlineTransaction = 1 and
IsUsedPIN = 1 gets IsUsedPIN set to 0. -/
def pinFix (r : FraudRow) : FraudRow :=
  if r.isOnlineTransaction = 1 ∧ r.isUsedPIN = 1 then { r with isUsedPIN := 0 } else r

/-- DataConsistencyFixerStrategy._fix_fraud_indicator_consistency (fixers.py
1006-1017): the chip pass over the whole table, then the PIN pass. -/
def fixFraudIndicatorConsistency (rows : List FraudRow) : List FraudRow :=
  (rows.map chipFix).map pinFix

/-- DataConsistencyFixerStrategy._fix (fixers.py 889-904) on a fraud table
that has all four indicator columns, preceded by the empty guard of the
wrapper: only the dataset name Fraud reaches the fraud branch (the Loan and
Market branches require columns a fraud table does not have and do
nothing). -/
def DataConsistencyFixerStrategy.fixFraud (datasetName : String) (rows : List FraudRow) :
    List FraudRow :=
  if rows = [] then rows
  else if datasetName = "Fraud" then fixFraudIndicatorConsistency rows
  else rows

/-! Concrete tables and states used as failing inputs and witnesses. -/

/-- A fresh cache in its default configuration (enable_caching true). -/
def emptyCache : CacheState := ⟨true, [], []⟩

/-- A cache holding entries of the datasets X and XY in both tiers. -/
def populatedCache : CacheState :=
  ⟨true, [("X_a", [[1]]), ("XY_b", [[2]])], [("X_a", [[1]]), ("XY_b", [[2]])]⟩

/-- A cleaning step whose pipeline maps every table to the empty table. -/
def emptyingStep : PStep := ⟨"DataCleaning", fun _ => [], none, none⟩

/-- A one-row loan table whose Age is exactly 0. -/
def cexLoanZeroAge : LoanTable := ⟨some [0], none, none, none, none, none⟩

/-- A loan table with the age column (20, -5, 30), whose median is 20. -/
def loanAgeW : LoanTable := ⟨some [20, -5, 30], none, none, none, none, none⟩

/-- A two-group outlier column: the CustomerID-1 group holds the thirteen
distinct values 1..13 (no consensus), the CustomerID-2 group holds
(1000, 1000, 10), whose consensus 1000 overwrites the 10. -/
def cexOutlierRows : List (ℚ × ℚ) :=
  [(1, 1), (1, 2), (1, 3), (1, 4), (1, 5), (1, 6), (1, 7), (1, 8), (1, 9), (1, 10),
   (1, 11), (1, 12), (1, 13), (2, 1000), (2, 1000), (2, 10)]

/-- A keyless outlier column 0,1,2,3 with positive IQR. -/
def outlierWRows : List (ℚ × ℚ) := [(0, 0), (0, 1), (0, 2), (0, 3)]

/-- One group of three rows with consensus value 5 and a deviating 7. -/
def groupWRows : List (ℚ × ℚ) := [(1, 5), (1, 5), (1, 7)]

/-- A market table whose last row (200, 200, 200, 150) has its HighestValue
capped to 105 by the step-2 IQR bounds of the High column while its
LowestValue 150 stays inside the wider Low-column bounds. -/
def cexMarket : List MarketRow :=
  [⟨100, 100, 100, 10⟩, ⟨101, 101, 101, 60⟩, ⟨102, 102, 102, 90⟩,
   ⟨103, 103, 103, 100⟩, ⟨200, 200, 200, 150⟩]

/-- An inner _fix that always raises. -/
def innerRaise : ℕ → Table → Except String (ℕ × Table) := fun _ _ => .error "boom"

/-- One fraud row carrying an online transaction with chip and PIN set. -/
def fraudWRows : List FraudRow := [⟨0, 1, 1, 1⟩]

/-! Helper lemmas. -/

theorem zip_map_self {α β : Type} (f : α → β) (l : List α) :
    l.zip (l.map f) = l.map (fun x => (x, f x)) := by
  induction l with
  | nil => rfl
  | cons a t ih => simp [ih]

theorem countSeverity_append (a b : List Issue) (s : String) :
    countSeverity (a ++ b) s = countSeverity a s + countSeverity b s := by
  simp [countSeverity, List.filter_append]

/-- Invariant of the validation step loop: the incremental critical and
warning counters track the severity counts of the accumulated issues. -/
theorem vfold_counts (df : Table) (steps : List (Table → Except String StepResult)) :
    ∀ acc : VAcc,
      acc.crit = countSeverity acc.issues "critical" →
      acc.warn = countSeverity acc.issues "warning" →
      (steps.foldl (vStepFold df) acc).crit =
          countSeverity (steps.foldl (vStepFold df) acc).issues "critical" ∧
      (steps.foldl (vStepFold df) acc).warn =
          countSeverity (steps.foldl (vStepFold df) acc).issues "warning" := by
  induction steps with
  | nil => intro acc hc hw; exact ⟨hc, hw⟩
  | cons step rest ih =>
    intro acc hc hw
    simp only [List.foldl_cons]
    apply ih
    · unfold vStepFold
      cases h : step df with
      | error e => simpa using hc
      | ok r => simp [countSeverity_append, hc]
    · unfold vStepFold
      cases h : step df with
      | error e => simpa using hw
      | ok r => simp [countSeverity_append, hw]

/-- ValidationPipeline.process on a nonempty table, unfolded. -/
theorem process_eq (count : ℕ) (steps : List (Table → Except String StepResult))
    (df : Table) (hdf : df ≠ []) :
    ValidationPipeline.process count steps df =
      { status := (steps.foldl (vStepFold df) ⟨"passed", [], 0, 0⟩).status
        issues := (steps.foldl (vStepFold df) ⟨"passed", [], 0, 0⟩).issues
        validationPass := count + 1
        score :=
          if (steps.foldl (vStepFold df) ⟨"passed", [], 0, 0⟩).issues = [] then 100
          else max 0 (100 -
            (((steps.foldl (vStepFold df) ⟨"passed", [], 0, 0⟩).crit : ℤ) * 10 +
             ((steps.foldl (vStepFold df) ⟨"passed", [], 0, 0⟩).warn : ℤ) * 2)) } := by
  unfold ValidationPipeline.process
  rw [if_neg hdf]

/-! Claim theorems. -/

/-- C2: for every validation run on a nonempty table, the combined
dataset_quality_score equals max(0, 100 - 10*critical - 2*warning) counted
over the issues accumulated from the validation strategies of that run, and
it lies in the interval 0..100 however many issues accumulate. -/
theorem validation_score_formula (count : ℕ)
    (steps : List (Table → Except String StepResult)) (df : Table) (hdf : df ≠ []) :
    (ValidationPipeline.process count steps df).score =
      max 0 (100 -
        ((countSeverity (ValidationPipeline.process count steps df).issues "critical" : ℤ) * 10 +
         (countSeverity (ValidationPipeline.process count steps df).issues "warning" : ℤ) * 2)) ∧
    0 ≤ (ValidationPipeline.process count steps df).score ∧
    (ValidationPipeline.process count steps df).score ≤ 100 := by
  obtain ⟨hc, hw⟩ := vfold_counts df steps ⟨"passed", [], 0, 0⟩ rfl rfl
  rw [process_eq count steps df hdf]
  by_cases hi : (steps.foldl (vStepFold df) ⟨"passed", [], 0, 0⟩).issues = []
  · simp only [hi, if_pos]
    rw [hi] at hc hw
    simp [countSeverity] at hc hw
    refine ⟨?_, by norm_num, by norm_num⟩
    simp [hi, countSeverity]
  · simp only [hi, if_neg, ite_false]
    refine ⟨by rw [hc, hw], le_max_left _ _, ?_⟩
    apply max_le (by norm_num)
    have h1 : (0 : ℤ) ≤ ((steps.foldl (vStepFold df) ⟨"passed", [], 0, 0⟩).crit : ℤ) * 10 +
        ((steps.foldl (vStepFold df) ⟨"passed", [], 0, 0⟩).warn : ℤ) * 2 := by positivity
    linarith

/-- C2 witness: the theorem applied to a run of zero strategies over a
one-row table. -/
theorem validation_score_formula_witness :
    ([[(1 : ℚ)]] : Table) ≠ [] ∧
      (ValidationPipeline.process 0 [] [[(1 : ℚ)]]).score =
        max 0 (100 -
          ((countSeverity (ValidationPipeline.process 0 [] [[(1 : ℚ)]]).issues "critical" : ℤ) * 10 +
           (countSeverity (ValidationPipeline.process 0 [] [[(1 : ℚ)]]).issues "warning" : ℤ) * 2)) :=
  ⟨by decide, (validation_score_formula 0 [] [[(1 : ℚ)]] (by decide)).1⟩

/-- C10: a validation pipeline step and the executor's validation step both
return the table they were given; validation only records results. -/
theorem validation_steps_preserve_table (validate : Table → StepResult)
    (validator : Table → VResults) (stored : Option VResults) (df : Table) :
    ValidationPipelineStep.execute validate df = df ∧
    (DataValidationStep.execute validator stored df).2 = df := by
  refine ⟨rfl, ?_⟩
  unfold DataValidationStep.execute
  split <;> rfl

/-- C9 counterexample: saving the empty table under (X, step) into a fresh
enabled cache stores nothing, so reading (X, step) back yields no table at
all, refuting the round-trip for every table. -/
theorem cache_roundtrip_empty_cex :
    (CacheManager.getFromCache
        (CacheManager.saveToCache emptyCache ([] : Table) "X" "step") "X" "step").1 = none := by
  rfl

/-- C9 amended: with caching enabled, saving a nonempty table under
(dataset, step) and reading (dataset, step) back returns the saved table,
and clearing a dataset removes exactly the entries (memory and disk) whose
key starts with the dataset name followed by an underscore. -/
theorem cache_roundtrip_and_clear (s : CacheState) (df : Table) (d st : String)
    (hen : s.enabled = true) (hdf : df ≠ []) :
    (CacheManager.getFromCache (CacheManager.saveToCache s df d st) d st).1 = some df ∧
    ∀ k : String,
      (k ∈ (CacheManager.clearCache s d).mem.map Prod.fst ↔
        k ∈ s.mem.map Prod.fst ∧ k.startsWith (d ++ "_") = false) ∧
      (k ∈ (CacheManager.clearCache s d).disk.map Prod.fst ↔
        k ∈ s.disk.map Prod.fst ∧ k.startsWith (d ++ "_") = false) := by
  constructor
  · have hsave : CacheManager.saveToCache s df d st =
        { s with mem := (cacheKey d st, df) :: s.mem, disk := (cacheKey d st, df) :: s.disk } := by
      unfold CacheManager.saveToCache
      rw [if_neg (by simp [hen, hdf])]
    have hlook : tierLookup ((cacheKey d st, df) :: s.mem) (cacheKey d st) = some df := by
      simp [tierLookup, List.find?]
    rw [hsave]
    unfold CacheManager.getFromCache
    rw [if_neg (by simp [hen])]
    simp [hlook]
  · intro k
    unfold CacheManager.clearCache
    rw [if_neg (by simp [hen])]
    refine ⟨?_, ?_⟩ <;>
    · simp only [List.mem_map, List.mem_filter, Bool.not_eq_true']
      constructor
      · rintro ⟨e, ⟨he, hp⟩, rfl⟩
        exact ⟨⟨e, he, rfl⟩, hp⟩
      · rintro ⟨⟨e, he, rfl⟩, hp⟩
        exact ⟨e, ⟨he, hp⟩, rfl⟩

/-- C9 witness: the amended round-trip and clear behaviour at a populated
cache, a nonempty table and the dataset X whose underscore prefix does not
match the key XY_b. -/
theorem cache_roundtrip_and_clear_witness :
    populatedCache.enabled = true ∧ ([[(3 : ℚ)]] : Table) ≠ [] ∧
    (CacheManager.getFromCache
        (CacheManager.saveToCache populatedCache [[(3 : ℚ)]] "X" "s") "X" "s").1 =
      some [[(3 : ℚ)]] ∧
    ("XY_b" ∈ (CacheManager.clearCache populatedCache "X").mem.map Prod.fst ↔
      "XY_b" ∈ populatedCache.mem.map Prod.fst ∧ "XY_b".startsWith ("X" ++ "_") = false) :=
  ⟨rfl, by decide,
    (cache_roundtrip_and_clear populatedCache [[(3 : ℚ)]] "X" "s" rfl (by decide)).1,
    ((cache_roundtrip_and_clear populatedCache [[(3 : ℚ)]] "X" "s" rfl (by decide)).2 "XY_b").1⟩

/-- C1: code bug demonstration.  On a nonempty load where the first step
returns an empty table, PipelineExecutor.execute evaluates to the bare
boolean return of engine.py line 632 (modelled by ExecReturn.single) and
not to a (success, final_table, last_validation_result) triple, although
its declared return type and both of its callers (engine.py 1008, 1033)
expect the triple. -/
theorem executor_empty_step_returns_bare_bool :
    PipelineExecutor.execute "Loan" [emptyingStep] emptyCache [[1]] (fun _ => true) =
      ExecReturn.single false := by
  rfl

/-- C3 counterexample: a loan row whose Age is exactly 0 is untouched by
DomainLoanFixerStrategy (the negative mask, the high mask and the strictly
positive low mask all miss it), so after fixing the row violates
Age in 18..100. -/
theorem loan_fix_age_zero_cex :
    (DomainLoanFixerStrategy.fix cexLoanZeroAge).age = some [(0 : ℚ)] ∧
      ¬ (18 ≤ (0 : ℚ) ∧ (0 : ℚ) ≤ 100) :=
  ⟨rfl, by norm_num⟩

/-- Range of the value-wise interest-rate fix. -/
theorem fixInterestRateVal_range (r : ℚ) :
    0 ≤ fixInterestRateVal r ∧ fixInterestRateVal r ≤ 100 := by
  unfold fixInterestRateVal
  by_cases h1 : r < 0
  · rw [if_pos h1]
    by_cases h2 : (100 : ℚ) < abs r
    · rw [if_pos h2]; norm_num
    · rw [if_neg h2]; exact ⟨abs_nonneg r, not_lt.mp h2⟩
  · rw [if_neg h1]
    by_cases h2 : (100 : ℚ) < r
    · rw [if_pos h2]; norm_num
    · rw [if_neg h2]; exact ⟨not_lt.mp h1, not_lt.mp h2⟩

/-- Range of the value-wise credit-score fix on a nonzero score. -/
theorem fixCreditScoreVal_range (c : ℚ) (hc : c ≠ 0) :
    300 ≤ fixCreditScoreVal c ∧ fixCreditScoreVal c ≤ 850 := by
  unfold fixCreditScoreVal
  by_cases h1 : c < 0
  · rw [if_pos h1]
    norm_num
  · rw [if_neg h1]
    have h0 : 0 < c := (not_lt.mp h1).lt_of_ne (Ne.symm hc)
    by_cases h2 : c < 300
    · rw [if_pos (show (0 : ℚ) < c ∧ c < 300 from ⟨h0, h2⟩)]
      norm_num
    · rw [if_neg (show ¬((0 : ℚ) < c ∧ c < 300) from fun hand => h2 hand.2)]
      by_cases h3 : (850 : ℚ) < c
      · rw [if_pos h3]; norm_num
      · rw [if_neg h3]; exact ⟨not_lt.mp h2, not_lt.mp h3⟩

/-- Range of the value-wise age fix: in range whenever the pre-fix age is
positive, or negative with a positive median. -/
theorem fixAgeVal_range (m a : ℚ) (ha : 0 < a ∨ (a < 0 ∧ 0 < m)) :
    18 ≤ fixAgeVal m a ∧ fixAgeVal m a ≤ 100 := by
  unfold fixAgeVal
  have hb : 0 < (if a < 0 then m else a) := by
    rcases ha with h0 | ⟨h0, hm⟩
    · rw [if_neg (by linarith)]; exact h0
    · rw [if_pos h0]; exact hm
  set b := (if a < 0 then m else a) with hbdef
  by_cases h2 : (100 : ℚ) < b
  · rw [if_pos h2]
    norm_num
  · rw [if_neg h2]
    by_cases h3 : (0 : ℚ) < b ∧ b < 18
    · rw [if_pos h3]
      norm_num
    · rw [if_neg h3]
      have h4 : ¬ b < 18 := fun hlt => h3 ⟨hb, hlt⟩
      exact ⟨not_lt.mp h4, not_lt.mp h2⟩

/-- C3 amended: after DomainLoanFixerStrategy.fix, InterestRate lies in
0..100 on every row; CreditScore lies in 300..850 on every row whose
pre-fix score is nonzero; and Age lies in 18..100 on every row whose
pre-fix age is positive, as well as on rows with negative pre-fix age
whenever the age-column median is positive (a zero value stays 0, and a
negative age is replaced by the median, which may itself be out of
range). -/
theorem loan_fix_ranges (t : LoanTable) (xs : List ℚ) :
    (t.interestRate = some xs →
      ∀ y ∈ ((DomainLoanFixerStrategy.fix t).interestRate).getD [], 0 ≤ y ∧ y ≤ 100) ∧
    (t.creditScore = some xs →
      ∀ p ∈ xs.zip (((DomainLoanFixerStrategy.fix t).creditScore).getD []),
        p.1 ≠ 0 → 300 ≤ p.2 ∧ p.2 ≤ 850) ∧
    (t.age = some xs →
      ∀ p ∈ xs.zip (((DomainLoanFixerStrategy.fix t).age).getD []),
        0 < p.1 ∨ (p.1 < 0 ∧ 0 < median xs) → 18 ≤ p.2 ∧ p.2 ≤ 100) := by
  refine ⟨?_, ?_, ?_⟩
  · intro h y hy
    rw [show (DomainLoanFixerStrategy.fix t).interestRate = some (fixInterestRate xs) by
      simp [DomainLoanFixerStrategy.fix, h]] at hy
    simp only [Option.getD_some, fixInterestRate, List.mem_map] at hy
    obtain ⟨x, -, rfl⟩ := hy
    exact fixInterestRateVal_range x
  · intro h p hp
    rw [show (DomainLoanFixerStrategy.fix t).creditScore = some (fixCreditScore xs) by
      simp [DomainLoanFixerStrategy.fix, h]] at hp
    simp only [Option.getD_some, fixCreditScore, zip_map_self, List.mem_map] at hp
    obtain ⟨x, -, rfl⟩ := hp
    intro hx
    exact fixCreditScoreVal_range x hx
  · intro h p hp
    rw [show (DomainLoanFixerStrategy.fix t).age = some (fixAgeValues xs) by
      simp [DomainLoanFixerStrategy.fix, h]] at hp
    simp only [Option.getD_some, fixAgeValues, zip_map_self, List.mem_map] at hp
    obtain ⟨x, -, rfl⟩ := hp
    intro hx
    exact fixAgeVal_range (median xs) x hx

/-- C3 witness: the amended age bound at the column (20, -5, 30), whose
median 20 is positive, on the pair of the negative pre-fix age -5 and its
post-fix value 20. -/
theorem loan_fix_ranges_witness :
    loanAgeW.age = some [(20 : ℚ), -5, 30] ∧ (18 ≤ (20 : ℚ) ∧ (20 : ℚ) ≤ 100) :=
  ⟨rfl, (loan_fix_ranges loanAgeW [(20 : ℚ), -5, 30]).2.2 rfl ((-5 : ℚ), (20 : ℚ))
    (by decide) (by decide)⟩

set_option maxRecDepth 8000 in
unseal Rat.add Rat.mul Rat.sub Rat.inv in
/-- C5 counterexample: on the two-group CustomerID column, the group
consensus rewrites the value 10 of the second group to 1000, shifting the
distribution before the global capping; the capped result 139/4 = 34.75
exceeds the bound Q3 + 3*IQR = 123/4 = 30.75 computed on the original
(pre-fix) distribution, although the column is not skipped, the group key
is found, and the original IQR 13/2 is positive. -/
theorem outlier_fix_original_bounds_cex :
    findGroupbyKey ["CustomerID", "X"] = some "CustomerID" ∧
    shouldSkipColumn "X" (cexOutlierRows.map (·.2)) "" = false ∧
    quantile (cexOutlierRows.map (·.2)) (3/4) -
        quantile (cexOutlierRows.map (·.2)) (1/4) = 13/2 ∧
    (139/4 : ℚ) ∈ OutlierFixerStrategy.fixColumn true cexOutlierRows 3 ∧
    ¬ ((139/4 : ℚ) ≤ quantile (cexOutlierRows.map (·.2)) (3/4) +
        3 * (quantile (cexOutlierRows.map (·.2)) (3/4) -
             quantile (cexOutlierRows.map (·.2)) (1/4))) :=
  ⟨by decide, by decide, by decide, by decide, by decide⟩

/-- C5 amended: after OutlierFixerStrategy fixes a non-skipped numeric
column, all its values lie within the bounds Q1 - k*IQR and Q3 + k*IQR,
where Q1, Q3 and IQR are those of the column as it stands when the global
capping runs, i.e. after the group-consensus correction (and equal to the
original distribution exactly when no group-by key was found), provided
that IQR is positive and the threshold k nonnegative. -/
theorem outlier_fix_bounds (hasGroupKey : Bool) (rows : List (ℚ × ℚ)) (k : ℚ)
    (hk : 0 ≤ k)
    (hiqr : 0 < quantile (OutlierFixerStrategy.midColumn hasGroupKey rows) (3/4) -
        quantile (OutlierFixerStrategy.midColumn hasGroupKey rows) (1/4)) :
    ∀ y ∈ OutlierFixerStrategy.fixColumn hasGroupKey rows k,
      quantile (OutlierFixerStrategy.midColumn hasGroupKey rows) (1/4) -
          k * (quantile (OutlierFixerStrategy.midColumn hasGroupKey rows) (3/4) -
               quantile (OutlierFixerStrategy.midColumn hasGroupKey rows) (1/4)) ≤ y ∧
      y ≤ quantile (OutlierFixerStrategy.midColumn hasGroupKey rows) (3/4) +
          k * (quantile (OutlierFixerStrategy.midColumn hasGroupKey rows) (3/4) -
               quantile (OutlierFixerStrategy.midColumn hasGroupKey rows) (1/4)) := by
  intro y hy
  set mid := OutlierFixerStrategy.midColumn hasGroupKey rows with hmid
  set q1 := quantile mid (1/4) with hq1
  set q3 := quantile mid (3/4) with hq3
  have hfix : OutlierFixerStrategy.fixColumn hasGroupKey rows k =
      mid.map (capToBounds (q1 - k * (q3 - q1)) (q3 + k * (q3 - q1))) := by
    unfold OutlierFixerStrategy.fixColumn fixGlobalOutliers
    rw [← hmid, ← hq1, ← hq3]
    unfold calculateBounds
    rw [if_neg (ne_of_gt hiqr)]
  rw [hfix, List.mem_map] at hy
  obtain ⟨x, -, rfl⟩ := hy
  have hw : 0 ≤ k * (q3 - q1) := mul_nonneg hk (le_of_lt hiqr)
  unfold capToBounds
  by_cases hhi : q3 + k * (q3 - q1) < x
  · rw [if_pos hhi]
    constructor <;> linarith
  · rw [if_neg hhi]
    by_cases hlo : x < q1 - k * (q3 - q1)
    · rw [if_pos hlo]
      constructor <;> linarith
    · rw [if_neg hlo]
      exact ⟨not_lt.mp hlo, not_lt.mp hhi⟩

unseal Rat.add Rat.mul Rat.sub Rat.inv in
/-- C5 witness: the amended bound at the keyless column 0,1,2,3, whose
quartiles are 3/4 and 9/4, applied to the surviving value 0. -/
theorem outlier_fix_bounds_witness :
    (0 : ℚ) ≤ 3 ∧
    (0 < quantile (OutlierFixerStrategy.midColumn false outlierWRows) (3/4) -
        quantile (OutlierFixerStrategy.midColumn false outlierWRows) (1/4)) ∧
    (quantile (OutlierFixerStrategy.midColumn false outlierWRows) (1/4) -
        3 * (quantile (OutlierFixerStrategy.midColumn false outlierWRows) (3/4) -
             quantile (OutlierFixerStrategy.midColumn false outlierWRows) (1/4)) ≤ 0 ∧
      (0 : ℚ) ≤ quantile (OutlierFixerStrategy.midColumn false outlierWRows) (3/4) +
        3 * (quantile (OutlierFixerStrategy.midColumn false outlierWRows) (3/4) -
             quantile (OutlierFixerStrategy.midColumn false outlierWRows) (1/4))) :=
  ⟨by norm_num, by decide,
    outlier_fix_bounds false outlierWRows 3 (by norm_num) (by decide) 0 (by decide)⟩

/-- C6: whenever a group-by key has been found, every row of a group of
size at least 3 whose most frequent value occurs in at least size - 2 of
its rows ends the group phase carrying that consensus value, and the fix of
the column is exactly this group correction followed by the global IQR
capping of the corrected column. -/
theorem group_consensus_then_global (rows : List (ℚ × ℚ)) :
    (∀ p ∈ rows.zip (fixGroupOutliers rows),
      3 ≤ (groupValues rows p.1.1).length →
      (groupValues rows p.1.1).length - 2 ≤
          cnt (groupValues rows p.1.1) (firstMode (groupValues rows p.1.1)) →
      p.2 = (p.1.1, firstMode (groupValues rows p.1.1))) ∧
    (∀ k : ℚ, OutlierFixerStrategy.fixColumn true rows k =
      fixGlobalOutliers ((fixGroupOutliers rows).map (·.2)) k) := by
  constructor
  · intro p hp h3 hcnt
    rw [fixGroupOutliers, zip_map_self, List.mem_map] at hp
    obtain ⟨r, -, rfl⟩ := hp
    dsimp only at h3 hcnt ⊢
    rw [if_pos ⟨h3, hcnt⟩]
    by_cases hrm : r.2 = firstMode (groupValues rows r.1)
    · rw [if_pos hrm, hrm]
    · rw [if_neg hrm]
  · intro k
    rfl

/-- C6 witness: in the single group (5, 5, 7) of size 3 the value 5 occurs
twice, at least 3 - 2 times, so the deviating row (1, 7) ends the group
phase carrying (1, 5). -/
theorem group_consensus_then_global_witness :
    3 ≤ (groupValues groupWRows 1).length ∧
    (groupValues groupWRows 1).length - 2 ≤
        cnt (groupValues groupWRows 1) (firstMode (groupValues groupWRows 1)) ∧
    ((1 : ℚ), (5 : ℚ)) = ((1 : ℚ), firstMode (groupValues groupWRows 1)) :=
  ⟨by decide, by decide,
    (group_consensus_then_global groupWRows).1 (((1 : ℚ), (7 : ℚ)), ((1 : ℚ), (5 : ℚ)))
      (by decide) (by decide) (by decide)⟩

/-- C7: the shared fixer wrapper resets the fix counter to zero at the
start of every call (its result does not depend on the incoming counter),
returns an empty input unchanged, and returns the original input unchanged
whenever the internal fixing logic raises; it is a total function, so it
never raises itself. -/
theorem fixer_fix_contract (inner : ℕ → Table → Except String (ℕ × Table))
    (c c' : ℕ) (df : Table) :
    (df = [] → FixerStrategy.fix inner c df = (0, df)) ∧
    (∀ e, inner 0 df = .error e → FixerStrategy.fix inner c df = (0, df)) ∧
    FixerStrategy.fix inner c df = FixerStrategy.fix inner c' df := by
  refine ⟨?_, ?_, rfl⟩
  · intro h
    simp [FixerStrategy.fix, h]
  · intro e he
    unfold FixerStrategy.fix
    by_cases h : df = []
    · simp [h]
    · simp [h, he]

/-- C7 witness: the wrapper around an always-raising inner fix, called with
the stale counter 5, on a one-row table and on the empty table. -/
theorem fixer_fix_contract_witness :
    innerRaise 0 [[(1 : ℚ)]] = .error "boom" ∧
    FixerStrategy.fix innerRaise 5 [[(1 : ℚ)]] = (0, [[(1 : ℚ)]]) ∧
    (([] : Table) = [] → FixerStrategy.fix innerRaise 5 [] = (0, [])) :=
  ⟨rfl, (fixer_fix_contract innerRaise 5 5 [[(1 : ℚ)]]).2.1 "boom" rfl,
    fun _ => (fixer_fix_contract innerRaise 5 5 []).1 rfl⟩

/-- The chip pass leaves the online and PIN indicators unchanged. -/
theorem chipFix_fields (r : FraudRow) :
    (chipFix r).isOnlineTransaction = r.isOnlineTransaction ∧
    (chipFix r).isUsedPIN = r.isUsedPIN := by
  unfold chipFix
  split_ifs <;> exact ⟨rfl, rfl⟩

/-- The PIN pass leaves the online and chip indicators unchanged. -/
theorem pinFix_fields (r : FraudRow) :
    (pinFix r).isOnlineTransaction = r.isOnlineTransaction ∧
    (pinFix r).isUsedChip = r.isUsedChip := by
  unfold pinFix
  split_ifs <;> exact ⟨rfl, rfl⟩

/-- After the chip pass no row is online with chip set. -/
theorem chipFix_no_online_chip (r : FraudRow) :
    ¬ ((chipFix r).isOnlineTransaction = 1 ∧ (chipFix r).isUsedChip = 1) := by
  unfold chipFix
  by_cases h : r.isOnlineTransaction = 1 ∧ r.isUsedChip = 1
  · rw [if_pos h]
    rintro ⟨-, hch⟩
    exact absurd hch (by norm_num)
  · rw [if_neg h]
    exact h

/-- After the PIN pass no row is online with PIN set. -/
theorem pinFix_no_online_pin (r : FraudRow) :
    ¬ ((pinFix r).isOnlineTransaction = 1 ∧ (pinFix r).isUsedPIN = 1) := by
  unfold pinFix
  by_cases h : r.isOnlineTransaction = 1 ∧ r.isUsedPIN = 1
  · rw [if_pos h]
    rintro ⟨-, hpn⟩
    exact absurd hpn (by norm_num)
  · rw [if_neg h]
    exact h

/-- C8: after the consistency fixer runs on a Fraud table with the four
indicator columns, no row combines IsOnlineTransaction = 1 with
IsUsedChip = 1 and none combines IsOnlineTransaction = 1 with
IsUsedPIN = 1; in particular a row that came in with IsOnlineTransaction
= 1 and IsUsedChip = 1 leaves with IsUsedChip = 0. -/
theorem fraud_consistency_fix (rows : List FraudRow) :
    (∀ r ∈ DataConsistencyFixerStrategy.fixFraud "Fraud" rows,
      ¬ (r.isOnlineTransaction = 1 ∧ r.isUsedChip = 1) ∧
      ¬ (r.isOnlineTransaction = 1 ∧ r.isUsedPIN = 1)) ∧
    (∀ p ∈ rows.zip (DataConsistencyFixerStrategy.fixFraud "Fraud" rows),
      p.1.isOnlineTransaction = 1 → p.1.isUsedChip = 1 → p.2.isUsedChip = 0) := by
  by_cases hE : rows = []
  · subst hE
    exact ⟨fun r hr => absurd hr (List.not_mem_nil r), fun p hp => absurd hp (by simp)⟩
  · have hff : DataConsistencyFixerStrategy.fixFraud "Fraud" rows =
        rows.map (fun x => pinFix (chipFix x)) := by
      unfold DataConsistencyFixerStrategy.fixFraud
      rw [if_neg hE, if_pos rfl]
      unfold fixFraudIndicatorConsistency
      rw [List.map_map]
      rfl
    constructor
    · intro r hr
      rw [hff, List.mem_map] at hr
      obtain ⟨x, -, rfl⟩ := hr
      constructor
      · rintro ⟨hon, hch⟩
        rw [(pinFix_fields (chipFix x)).1] at hon
        rw [(pinFix_fields (chipFix x)).2] at hch
        exact chipFix_no_online_chip x ⟨hon, hch⟩
      · exact pinFix_no_online_pin (chipFix x)
    · intro p hp hon hch
      rw [hff, zip_map_self, List.mem_map] at hp
      obtain ⟨x, -, rfl⟩ := hp
      dsimp only at hon hch ⊢
      rw [(pinFix_fields (chipFix x)).2]
      unfold chipFix
      rw [if_pos ⟨hon, hch⟩]

/-- C8 witness: the fraud row (0, 1, 1, 1), online with chip and PIN set,
leaves the consistency fixer with IsUsedChip = 0. -/
theorem fraud_consistency_fix_witness :
    ((⟨0, 1, 1, 1⟩ : FraudRow), (⟨0, 1, 0, 0⟩ : FraudRow)) ∈
        fraudWRows.zip (DataConsistencyFixerStrategy.fixFraud "Fraud" fraudWRows) ∧
    (FraudRow.mk 0 1 0 0).isUsedChip = 0 :=
  ⟨by decide,
    (fraud_consistency_fix fraudWRows).2 ((⟨0, 1, 1, 1⟩ : FraudRow), (⟨0, 1, 0, 0⟩ : FraudRow))
      (by decide) rfl rfl⟩

unseal Rat.add Rat.mul Rat.sub Rat.inv in
/-- C4: code bug demonstration.  On the concrete market table cexMarket,
whose rows all satisfy HighestValue at least LowestValue on input, the
step-2 per-column IQR capping of DomainMarketFixerStrategy caps the last
row's HighestValue to 105 while leaving its LowestValue at 150, so the
fixed table contains a complete OHLC row with HighestValue below
LowestValue (and OpenValue above HighestValue); the final invariant check
of the source only logs this. -/
theorem market_fix_residual_inversion :
    ∃ r ∈ DomainMarketFixerStrategy.fix cexMarket,
      r.highestValue < r.lowestValue ∧ r.highestValue < r.openValue :=
  ⟨⟨150, 150, 105, 150⟩, by decide, by norm_num, by norm_num⟩
